import Mathlib

/-!
# A verification development for the `rlox` lexical scanner

Shallow embedding of `src/interpret/src/scanner.rs`.  The Rust scanner walks
the source text with a peekable character iterator, so we model the cursor as
a `List Char` and each dispatch arm of the `while let` loop in `scan_tokens`
as a step function consuming the remaining characters.  Rust `panic!`s
(in particular the `unwrap` on `str::parse::<f64>` inside `number_parse`)
are modelled by `Option`: `none` is an aborted scan.

Modelling notes, faithful to the source:
* The token type mirrors the Rust `Token` enum, every variant carrying its
  `line` field; `Invalid` additionally carries the formatted message string.
* The numeric payload of `Number` is modelled as a natural number: the only
  strings the scanner ever feeds to the float parser are (possibly empty)
  runs of decimal digits, on which a successful `f64` parse denotes the
  exact integer value for all magnitudes exercised here; the empty run makes
  the parse fail, which is the `unwrap` panic.  (No `Number` token ever
  reaches the scanner output anyway, because `scan_tokens` discards the
  vector returned by `number_parse`.)
* Rust `char::is_numeric` is modelled by `Char.isDigit`; the two agree on
  every ASCII character, and all inputs in the claims are ASCII.
-/

namespace RLox

/-- The Rust `Token` enum of `scanner.rs`, with all of its variants.  Each
variant carries the `line` field; literal variants also carry payloads. -/
inductive Token where
  | LeftParen (line : Nat)
  | RightParen (line : Nat)
  | LeftBrace (line : Nat)
  | RightBrace (line : Nat)
  | Comma (line : Nat)
  | Dot (line : Nat)
  | Minus (line : Nat)
  | Plus (line : Nat)
  | Semicolon (line : Nat)
  | Slash (line : Nat)
  | Asterisk (line : Nat)
  | Bang (line : Nat)
  | BangEqual (line : Nat)
  | Equal (line : Nat)
  | EqualEqual (line : Nat)
  | Greater (line : Nat)
  | GreaterEqual (line : Nat)
  | Less (line : Nat)
  | LessEqual (line : Nat)
  | Identifier (line : Nat) (literal : String)
  | String (line : Nat) (literal : String)
  | Number (line : Nat) (literal : Nat)
  | And (line : Nat)
  | Class (line : Nat)
  | Else (line : Nat)
  | False (line : Nat)
  | Fun (line : Nat)
  | For (line : Nat)
  | If (line : Nat)
  | Nil (line : Nat)
  | Or (line : Nat)
  | Print (line : Nat)
  | Return (line : Nat)
  | Super (line : Nat)
  | This (line : Nat)
  | True (line : Nat)
  | Var (line : Nat)
  | While (line : Nat)
  | Eof (line : Nat)
  | Invalid (message : String) (line : Nat)
deriving DecidableEq

/-- The `line` field every `Token` variant carries. -/
def Token.line : Token → Nat
  | .LeftParen l => l
  | .RightParen l => l
  | .LeftBrace l => l
  | .RightBrace l => l
  | .Comma l => l
  | .Dot l => l
  | .Minus l => l
  | .Plus l => l
  | .Semicolon l => l
  | .Slash l => l
  | .Asterisk l => l
  | .Bang l => l
  | .BangEqual l => l
  | .Equal l => l
  | .EqualEqual l => l
  | .Greater l => l
  | .GreaterEqual l => l
  | .Less l => l
  | .LessEqual l => l
  | .Identifier l _ => l
  | .String l _ => l
  | .Number l _ => l
  | .And l => l
  | .Class l => l
  | .Else l => l
  | .False l => l
  | .Fun l => l
  | .For l => l
  | .If l => l
  | .Nil l => l
  | .Or l => l
  | .Print l => l
  | .Return l => l
  | .Super l => l
  | .This l => l
  | .True l => l
  | .Var l => l
  | .While l => l
  | .Eof l => l
  | .Invalid _ l => l

/-- The string built by the catch-all arm of `scan_tokens` for an unexpected
character: the Rust format string interpolates the character and the line. -/
def invalidMessage (c : Char) (line : Nat) : String :=
  "Unexpected character " ++ String.singleton c ++ " line " ++ Nat.repr line

/-- The `char_iter_peekable.next_if_eq` call after the string-literal loop:
consume one closing quote when present. -/
def stripQuote : List Char → List Char
  | '"' :: rest => rest
  | rest => rest

/-- The helper `parse_number_chunk` of `number_parse`: the maximal run of
numeric characters at the head of the cursor, and the remaining cursor. -/
def parse_number_chunk (cs : List Char) : List Char × List Char :=
  (cs.takeWhile Char.isDigit, cs.dropWhile Char.isDigit)

/-- Rust `str::parse::<f64>` applied to the digit runs produced by
`parse_number_chunk`, followed by `unwrap`: `none` is the panic on the empty
string, otherwise the exact decimal value. -/
def parseF64 (cs : List Char) : Option Nat :=
  if cs.isEmpty then none
  else some (cs.foldl (fun a c => a * 10 + (c.toNat - '0'.toNat)) 0)

/-- `Scanner::number_parse`.  The first digit was already consumed (and
dropped) by `scan_tokens`; this reads the rest of the digit run, then, unless
the next character is a dot, pushes one `Number` token built from
`literal.parse().unwrap()` - whose panic is the `none` outcome.  Returns the
tokens it accumulated and the remaining cursor. -/
def number_parse (cs : List Char) (line : Nat) : Option (List Token × List Char) :=
  match (parse_number_chunk cs).2.head? with
  | some '.' => some ([], (parse_number_chunk cs).2)
  | _ =>
    match parseF64 (parse_number_chunk cs).1 with
    | some v => some ([Token.Number line v], (parse_number_chunk cs).2)
    | none => none

/-- `number_parse` leaves a cursor no longer than the one it was given. -/
theorem number_parse_rest_le {cs : List Char} {line : Nat}
    {r : List Token × List Char} (h : number_parse cs line = some r) :
    r.2.length ≤ cs.length := by
  unfold number_parse parse_number_chunk at h
  split at h
  · cases h
    exact (List.dropWhile_sublist _).length_le
  · split at h
    · cases h
      exact (List.dropWhile_sublist _).length_le
    · cases h

/-- One iteration of the `while let` loop of `scan_tokens`, dispatching on the
consumed character exactly as the Rust `match` does: the (optional) token
pushed, the remaining cursor, and the updated line counter.  `none` is a panic
inside the iteration.  Note the source maps the opening brace to `RightBrace`
and the closing brace to `LeftBrace`, that the digit arm drops the consumed
first digit, and that the tokens returned by `number_parse` are discarded. -/
def scanStep : Char → List Char → Nat → Option (Option Token × List Char × Nat)
  | '(', rest, line => some (some (.LeftParen line), rest, line)
  | ')', rest, line => some (some (.RightParen line), rest, line)
  | '{', rest, line => some (some (.RightBrace line), rest, line)
  | '}', rest, line => some (some (.LeftBrace line), rest, line)
  | ',', rest, line => some (some (.Comma line), rest, line)
  | '.', rest, line => some (some (.Dot line), rest, line)
  | '-', rest, line => some (some (.Minus line), rest, line)
  | '+', rest, line => some (some (.Plus line), rest, line)
  | ';', rest, line => some (some (.Semicolon line), rest, line)
  | '*', rest, line => some (some (.Asterisk line), rest, line)
  | '/', '/' :: r, line => some (none, r.dropWhile (fun x => x ≠ '\n'), line)
  | '/', rest, line => some (some (.Slash line), rest, line)
  | '!', '=' :: r, line => some (some (.BangEqual line), r, line)
  | '!', rest, line => some (some (.Bang line), rest, line)
  | '=', '=' :: r, line => some (some (.EqualEqual line), r, line)
  | '=', rest, line => some (some (.Equal line), rest, line)
  | '<', '=' :: r, line => some (some (.LessEqual line), r, line)
  | '<', rest, line => some (some (.Less line), rest, line)
  | '>', '=' :: r, line => some (some (.GreaterEqual line), r, line)
  | '>', rest, line => some (some (.Greater line), rest, line)
  | '"', rest, line =>
    some (some (.String line ⟨rest.takeWhile (fun x => x ≠ '"')⟩),
      stripQuote (rest.dropWhile (fun x => x ≠ '"')), line)
  | '0', rest, line
  | '1', rest, line
  | '2', rest, line
  | '3', rest, line
  | '4', rest, line
  | '5', rest, line
  | '6', rest, line
  | '7', rest, line
  | '8', rest, line
  | '9', rest, line =>
    match number_parse rest line with
    | some (_, r) => some (none, r, line)
    | none => none
  | ' ', rest, line
  | '\r', rest, line
  | '\t', rest, line => some (none, rest, line)
  | '\n', rest, line => some (none, rest, line + 1)
  | c, rest, line => some (some (.Invalid (invalidMessage c line) line), rest, line)

/-- `stripQuote` leaves a cursor no longer than the one it was given. -/
theorem stripQuote_length_le (l : List Char) : (stripQuote l).length ≤ l.length := by
  unfold stripQuote
  split <;> simp

/-- Each `scanStep` leaves a cursor no longer than the one it was given. -/
theorem scanStep_rest_le {c : Char} {rest : List Char} {line : Nat}
    {s : Option Token × List Char × Nat} (h : scanStep c rest line = some s) :
    s.2.1.length ≤ rest.length := by
  unfold scanStep at h
  split at h
  all_goals (try split at h)
  all_goals (try cases h)
  all_goals
    first
    | exact le_rfl
    | exact Nat.le_succ _
    | exact le_trans (List.dropWhile_sublist _).length_le (Nat.le_succ _)
    | exact le_trans (stripQuote_length_le _) (List.dropWhile_sublist _).length_le
    | exact number_parse_rest_le (by assumption)

/-- The `while let` loop of `scan_tokens`, with an explicit structural fuel so
that the definition computes by kernel reduction.  The fuel is spent one unit
per consumed character, so any fuel of at least the cursor length never runs
out (`scanLoopF_fuel`); `scanLoop` below supplies exactly that. -/
def scanLoopF : Nat → List Char → Nat → Option (List Token)
  | _, [], _ => some []
  | 0, _ :: _, _ => none
  | fuel + 1, c :: rest, line =>
    match scanStep c rest line with
    | none => none
    | some s => (scanLoopF fuel s.2.1 s.2.2).map (fun ts => s.1.toList ++ ts)

/-- The `while let` loop of `scan_tokens`: starting from a cursor and the
current line counter, the list of tokens pushed, or `none` if some iteration
panicked. -/
def scanLoop (cs : List Char) (line : Nat) : Option (List Token) :=
  scanLoopF cs.length cs line

/-- Any fuel of at least the cursor length gives the same scan result. -/
theorem scanLoopF_fuel :
    ∀ (f g : Nat) (cs : List Char) (line : Nat), cs.length ≤ f → cs.length ≤ g →
      scanLoopF f cs line = scanLoopF g cs line := by
  intro f
  induction f with
  | zero =>
    intro g cs line hf _
    cases cs with
    | nil => cases g <;> rfl
    | cons c rest => simp at hf
  | succ f ih =>
    intro g cs line hf hg
    cases cs with
    | nil => cases g <;> rfl
    | cons c rest =>
      cases g with
      | zero => simp at hg
      | succ g =>
        have hf' : rest.length ≤ f := by simpa using hf
        have hg' : rest.length ≤ g := by simpa using hg
        cases hs : scanStep c rest line with
        | none => simp [scanLoopF, hs]
        | some s =>
          have h1 : s.2.1.length ≤ f := le_trans (scanStep_rest_le hs) hf'
          have h2 : s.2.1.length ≤ g := le_trans (scanStep_rest_le hs) hg'
          simp [scanLoopF, hs, ih g s.2.1 s.2.2 h1 h2]

/-- Unfolding `scanLoop` when the dispatched iteration panics. -/
theorem scanLoop_cons_none {c : Char} {rest : List Char} {line : Nat}
    (hs : scanStep c rest line = none) : scanLoop (c :: rest) line = none := by
  show scanLoopF (rest.length + 1) (c :: rest) line = none
  simp [scanLoopF, hs]

/-- Unfolding `scanLoop` when the dispatched iteration succeeds: push the
optional token and continue on the remaining cursor with the updated line. -/
theorem scanLoop_cons_some {c : Char} {rest : List Char} {line : Nat}
    {s : Option Token × List Char × Nat} (hs : scanStep c rest line = some s) :
    scanLoop (c :: rest) line =
      (scanLoop s.2.1 s.2.2).map (fun ts => s.1.toList ++ ts) := by
  show scanLoopF (rest.length + 1) (c :: rest) line = _
  simp only [scanLoopF, hs]
  rw [scanLoopF_fuel rest.length s.2.1.length s.2.1 s.2.2 (scanStep_rest_le hs) le_rfl]
  rfl

/-- `Scanner::scan_tokens`: scan the whole source starting at line 0.
`none` is a panic. -/
def scan_tokens (source : String) : Option (List Token) :=
  scanLoop source.data 0

/-- The quote arm of the dispatch, for an arbitrary remaining cursor. -/
theorem scanStep_quote (rest : List Char) (n : Nat) :
    scanStep '"' rest n =
      some (some (.String n ⟨rest.takeWhile (fun x => x ≠ '"')⟩),
        stripQuote (rest.dropWhile (fun x => x ≠ '"')), n) := rfl

/-- The comment arm: a second slash was peeked. -/
theorem scanStep_comment (r : List Char) (n : Nat) :
    scanStep '/' ('/' :: r) n = some (none, r.dropWhile (fun x => x ≠ '\n'), n) := rfl

/-- The newline arm: no token, line counter incremented. -/
theorem scanStep_newline (rest : List Char) (n : Nat) :
    scanStep '\n' rest n = some (none, rest, n + 1) := rfl

/-- The divide arm: the character after the slash (if any) is not a slash. -/
theorem scanStep_slash (rest : List Char) (n : Nat) (h : rest.head? ≠ some '/') :
    scanStep '/' rest n = some (some (.Slash n), rest, n) := by
  cases rest with
  | nil => rfl
  | cons a t =>
    simp only [List.head?_cons, ne_eq, Option.some.injEq] at h
    unfold scanStep
    split
    all_goals simp_all

/-- The catch-all arm: a character no other arm matches becomes an `Invalid`
token carrying the formatted message, and scanning continues. -/
theorem scanStep_unhandled (c : Char) (rest : List Char) (n : Nat)
    (h : c ∉ (['(', ')', '{', '}', ',', '.', '-', '+', ';', '*', '/', '!', '=',
      '<', '>', '"', ' ', '\r', '\t', '\n'] : List Char))
    (hd : ¬ c.isDigit) :
    scanStep c rest n = some (some (.Invalid (invalidMessage c n) n), rest, n) := by
  simp only [List.mem_cons, List.not_mem_nil, or_false, not_or] at h
  unfold scanStep
  split
  all_goals
    first
    | rfl
    | simp_all

/-- Scanning a comment: both slashes are consumed and the rest of the line,
up to but excluding the newline, is discarded with no token emitted. -/
theorem scanLoop_comment (r : List Char) (n : Nat) :
    scanLoop ('/' :: '/' :: r) n = scanLoop (r.dropWhile (fun x => x ≠ '\n')) n := by
  rw [scanLoop_cons_some (scanStep_comment r n)]
  simp

/-- Scanning a newline: the line counter is incremented and nothing emitted. -/
theorem scanLoop_newline (cs : List Char) (n : Nat) :
    scanLoop ('\n' :: cs) n = scanLoop cs (n + 1) := by
  rw [scanLoop_cons_some (scanStep_newline cs n)]
  simp

/-- Scanning a slash not followed by a second slash: one `Slash` token. -/
theorem scanLoop_slash (rest : List Char) (n : Nat) (h : rest.head? ≠ some '/') :
    scanLoop ('/' :: rest) n = (scanLoop rest n).map (fun ts => Token.Slash n :: ts) := by
  rw [scanLoop_cons_some (scanStep_slash rest n h)]
  rfl

/-- Scanning an unhandled character: one `Invalid` token referencing the
character and the current line, then scanning continues on the rest. -/
theorem scanLoop_unhandled (c : Char) (rest : List Char) (n : Nat)
    (h : c ∉ (['(', ')', '{', '}', ',', '.', '-', '+', ';', '*', '/', '!', '=',
      '<', '>', '"', ' ', '\r', '\t', '\n'] : List Char))
    (hd : ¬ c.isDigit) :
    scanLoop (c :: rest) n =
      (scanLoop rest n).map (fun ts => Token.Invalid (invalidMessage c n) n :: ts) := by
  rw [scanLoop_cons_some (scanStep_unhandled c rest n h hd)]
  rfl

/-- Scanning a terminated string literal: every character before the closing
quote (newlines included, with no escape processing) becomes the literal
verbatim, the closing quote is consumed, and the line counter is unchanged
for the emitted token and for everything scanned after it. -/
theorem scanLoop_string_closed (s rest : List Char) (n : Nat) (h : '"' ∉ s) :
    scanLoop ('"' :: (s ++ '"' :: rest)) n =
      (scanLoop rest n).map (fun ts => Token.String n ⟨s⟩ :: ts) := by
  have hall : ∀ x ∈ s, decide (x ≠ '"') = true := by
    intro x hx
    rw [decide_eq_true_eq]
    exact fun e => h (e ▸ hx)
  have hstep := scanStep_quote (s ++ '"' :: rest) n
  rw [List.takeWhile_append_of_pos hall, List.dropWhile_append_of_pos hall] at hstep
  rw [List.takeWhile_cons_of_neg (by simp), List.dropWhile_cons_of_neg (by simp)] at hstep
  rw [scanLoop_cons_some hstep]
  simp [stripQuote]

/-- Scanning an unterminated string literal: input ends before a closing
quote, yet a `String` token carrying the partial literal is still emitted
and nothing else follows. -/
theorem scanLoop_string_eoi (s : List Char) (n : Nat) (h : '"' ∉ s) :
    scanLoop ('"' :: s) n = some [Token.String n ⟨s⟩] := by
  have hall : ∀ x ∈ s, decide (x ≠ '"') = true := by
    intro x hx
    rw [decide_eq_true_eq]
    exact fun e => h (e ▸ hx)
  have ht : s.takeWhile (fun x => x ≠ '"') = s := by
    have := @List.takeWhile_append_of_pos Char (fun x => decide (x ≠ '"')) s [] hall
    simpa using this
  have hd : s.dropWhile (fun x => x ≠ '"') = [] := by
    have := @List.dropWhile_append_of_pos Char (fun x => decide (x ≠ '"')) s [] hall
    simpa using this
  have hstep := scanStep_quote s n
  rw [ht, hd] at hstep
  rw [scanLoop_cons_some hstep]
  rfl

/-- `Option.toList` commutes with `Option.map`. -/
theorem opt_toList_map {α β : Type} (f : α → β) (o : Option α) :
    (o.map f).toList = o.toList.map f := by
  cases o <;> rfl

/-- `number_parse` succeeds or panics, and leaves the same cursor,
independently of the line counter it is given. -/
theorem number_parse_shift (cs : List Char) (m n : Nat) :
    (number_parse cs m).map (fun r => r.2) = (number_parse cs n).map (fun r => r.2) := by
  unfold number_parse
  split
  · rfl
  · split <;> rfl

/-- The digit arm of the dispatch with the line counter bumped by one:
same outcome structure, same cursor, bumped counter. -/
theorem digit_step_shift (rest : List Char) (n : Nat) :
    (match number_parse rest (n + 1) with
      | some (_, r) => some ((none : Option Token), r, n + 1)
      | none => (none : Option (Option Token × List Char × Nat))).map
        (fun (s : Option Token × List Char × Nat) => (s.1.map Token.line, s.2.1, s.2.2)) =
    (match number_parse rest n with
      | some (_, r) => some ((none : Option Token), r, n)
      | none => (none : Option (Option Token × List Char × Nat))).map
        (fun (s : Option Token × List Char × Nat) =>
          (s.1.map (fun (t : Token) => t.line + 1), s.2.1, s.2.2 + 1)) := by
  have h := number_parse_shift rest (n + 1) n
  cases h1 : number_parse rest n with
  | none =>
    rw [h1] at h
    simp only [Option.map_none'] at h
    have h2 : number_parse rest (n + 1) = none := by
      cases h3 : number_parse rest (n + 1)
      · rfl
      · rw [h3] at h; simp at h
    rw [h2]
    rfl
  | some r =>
    rw [h1] at h
    cases h2 : number_parse rest (n + 1) with
    | none => rw [h2] at h; simp at h
    | some r2 =>
      rw [h2] at h
      simp only [Option.map_some', Option.some.injEq] at h
      obtain ⟨tk, rr⟩ := r
      obtain ⟨tk2, rr2⟩ := r2
      simp only at h
      subst h
      rfl

/-- One dispatch step with the line counter bumped by one: panic-ness and
remaining cursor are unchanged, and both the emitted token's line and the
updated counter are one larger. -/
theorem scanStep_shift (c : Char) (rest : List Char) (n : Nat) :
    (scanStep c rest (n + 1)).map (fun s => (s.1.map Token.line, s.2.1, s.2.2)) =
    (scanStep c rest n).map (fun s => (s.1.map (fun t => t.line + 1), s.2.1, s.2.2 + 1)) := by
  unfold scanStep
  split
  all_goals
    first
    | rfl
    | exact digit_step_shift _ _

/-- Auxiliary strong induction for `scanLoop_shift`, on a bound for the
cursor length. -/
theorem scanLoop_shift_aux :
    ∀ (k : Nat) (cs : List Char), cs.length ≤ k → ∀ n : Nat,
      (scanLoop cs (n + 1)).map (List.map Token.line) =
      (scanLoop cs n).map (List.map (fun t => Token.line t + 1)) := by
  intro k
  induction k with
  | zero =>
    intro cs hk n
    have : cs = [] := List.length_eq_zero.mp (Nat.le_zero.mp hk)
    subst this
    rfl
  | succ k ih =>
    intro cs hk n
    cases cs with
    | nil => rfl
    | cons c rest =>
      have hr : rest.length ≤ k := by simpa using hk
      have hshift := scanStep_shift c rest n
      cases h1 : scanStep c rest n with
      | none =>
        rw [h1] at hshift
        simp only [Option.map_none'] at hshift
        have h2 : scanStep c rest (n + 1) = none := by
          cases h3 : scanStep c rest (n + 1)
          · rfl
          · rw [h3] at hshift; simp at hshift
        rw [scanLoop_cons_none h2, scanLoop_cons_none h1]
        rfl
      | some s =>
        rw [h1] at hshift
        cases h2 : scanStep c rest (n + 1) with
        | none => rw [h2] at hshift; simp at hshift
        | some s2 =>
          rw [h2] at hshift
          simp only [Option.map_some', Option.some.injEq, Prod.mk.injEq] at hshift
          obtain ⟨he, hr2, hl2⟩ := hshift
          rw [scanLoop_cons_some h2, scanLoop_cons_some h1, hr2, hl2]
          have ihs := ih s.2.1 (le_trans (scanStep_rest_le h1) hr) s.2.2
          cases h3 : scanLoop s.2.1 s.2.2 with
          | none =>
            rw [h3] at ihs
            simp only [Option.map_none'] at ihs
            have h4 : scanLoop s.2.1 (s.2.2 + 1) = none := by
              cases h5 : scanLoop s.2.1 (s.2.2 + 1)
              · rfl
              · rw [h5] at ihs; simp at ihs
            rw [h4]
            rfl
          | some ts =>
            rw [h3] at ihs
            cases h4 : scanLoop s.2.1 (s.2.2 + 1) with
            | none => rw [h4] at ihs; simp at ihs
            | some ts2 =>
              rw [h4] at ihs
              simp only [Option.map_some', Option.some.injEq] at ihs
              simp only [Option.map_some', Option.some.injEq]
              rw [List.map_append, List.map_append, ihs]
              have hfst := congrArg Option.toList he
              rw [opt_toList_map, opt_toList_map] at hfst
              rw [hfst]

/-- Starting the scan one line later bumps every emitted token's line by
exactly one, for any cursor. -/
theorem scanLoop_shift (cs : List Char) (n : Nat) :
    (scanLoop cs (n + 1)).map (List.map Token.line) =
    (scanLoop cs n).map (List.map (fun t => Token.line t + 1)) :=
  scanLoop_shift_aux cs.length cs le_rfl n

/-- Each successful dispatch step: the line counter never decreases, and any
token the step emits carries the line counter the step started with. -/
theorem scanStep_line_facts {c : Char} {rest : List Char} {n : Nat}
    {s : Option Token × List Char × Nat} (h : scanStep c rest n = some s) :
    n ≤ s.2.2 ∧ ∀ t ∈ s.1.toList, Token.line t = n := by
  unfold scanStep at h
  split at h
  all_goals (try split at h)
  all_goals (try cases h)
  all_goals
    first
    | exact ⟨le_rfl, by simp [Token.line]⟩
    | exact ⟨Nat.le_succ _, by simp⟩

/-- Auxiliary strong induction: the tokens pushed by a scan starting at line
`n` all carry lines at least `n`, and their lines are non-decreasing from
left to right. -/
theorem scanLoop_sorted_aux :
    ∀ (k : Nat) (cs : List Char), cs.length ≤ k → ∀ (n : Nat) (ts : List Token),
      scanLoop cs n = some ts →
      (∀ t ∈ ts, n ≤ Token.line t) ∧
        ts.Pairwise (fun a b => Token.line a ≤ Token.line b) := by
  intro k
  induction k with
  | zero =>
    intro cs hk n ts h
    have hnil : cs = [] := List.length_eq_zero.mp (Nat.le_zero.mp hk)
    subst hnil
    obtain rfl := Option.some.inj h
    exact ⟨by simp, by simp⟩
  | succ k ih =>
    intro cs hk n ts h
    cases cs with
    | nil =>
      obtain rfl := Option.some.inj h
      exact ⟨by simp, by simp⟩
    | cons c rest =>
      have hr : rest.length ≤ k := by simpa using hk
      cases h1 : scanStep c rest n with
      | none => rw [scanLoop_cons_none h1] at h; cases h
      | some s =>
        rw [scanLoop_cons_some h1] at h
        cases h3 : scanLoop s.2.1 s.2.2 with
        | none => rw [h3] at h; cases h
        | some ts2 =>
          rw [h3] at h
          simp only [Option.map_some', Option.some.injEq] at h
          subst h
          obtain ⟨hle, hemit⟩ := scanStep_line_facts h1
          obtain ⟨hall, hsort⟩ := ih s.2.1 (le_trans (scanStep_rest_le h1) hr) s.2.2 ts2 h3
          constructor
          · intro t ht
            rcases List.mem_append.mp ht with h5 | h5
            · exact le_of_eq (hemit t h5).symm
            · exact le_trans hle (hall t h5)
          · rw [List.pairwise_append]
            refine ⟨?_, hsort, ?_⟩
            · cases s.1 with
              | none => simp
              | some t => simp
            · intro a ha b hb
              rw [hemit a ha]
              exact le_trans hle (hall b hb)

/-- The number of newline characters in a list of characters. -/
def countNewlines (cs : List Char) : Nat :=
  (cs.filter (fun x => x = '\n')).length

/-- C1: the claim states that `scan_tokens` runs to completion on every input
and in particular that the numeric-literal path never fails its internal
parse.  In fact, on the single-digit input 5 the literal handed to the float
parser is empty - the consumed first digit is dropped and no further digit
follows - so the `unwrap` in `number_parse` panics, modelled here as the
scan returning `none`. -/
theorem c1_scan_panics_on_lone_digit : scan_tokens "5" = none := by decide

/-- C2: the claim states that (when the digit run is not followed by a dot)
exactly one Number token is appended whose payload is the full digit run.
In fact the scan of the input 12 returns no token at all, because
`scan_tokens` discards the vector returned by `number_parse`; moreover the
token `number_parse` builds internally from cursor 2 at line 0 holds the
value 2, not 12, because the consumed first digit is excluded from the
literal. -/
theorem c2_number_token_never_appended :
    scan_tokens "12" = some [] ∧
    number_parse ['2'] 0 = some ([Token.Number 0 2], []) := by decide

/-- C3: the claim (and the repository's own `number_and_comment` test)
expects the input `420.69 // Ignored comment` to yield exactly one Number
token near 420.69.  The scan does yield exactly one token, but it is the Dot
token produced by the decimal point: both digit runs are consumed and their
Number tokens discarded or suppressed. -/
theorem c3_scan_420_69_yields_dot_not_number :
    scan_tokens "420.69 // Ignored comment" = some [Token.Dot 0] := by decide

/-- C4: every single fixed punctuation character yields exactly one token at
line 0, but the braces are mapped crosswise relative to the claim: the
opening brace produces the `RightBrace` constructor and the closing brace
produces `LeftBrace`. -/
theorem c4_single_char_tokens_braces_swapped :
    scan_tokens "(" = some [Token.LeftParen 0] ∧
    scan_tokens ")" = some [Token.RightParen 0] ∧
    scan_tokens "\x7b" = some [Token.RightBrace 0] ∧
    scan_tokens "\x7d" = some [Token.LeftBrace 0] ∧
    scan_tokens "," = some [Token.Comma 0] ∧
    scan_tokens "." = some [Token.Dot 0] ∧
    scan_tokens "-" = some [Token.Minus 0] ∧
    scan_tokens "+" = some [Token.Plus 0] ∧
    scan_tokens ";" = some [Token.Semicolon 0] ∧
    scan_tokens "/" = some [Token.Slash 0] ∧
    scan_tokens "*" = some [Token.Asterisk 0] := by decide

/-- C5 counterexample: the claim says every consumed newline - including one
inside a string literal - increments the line recorded on all later tokens.
Scanning a quote, a newline, a quote and a plus sign, the scanner consumes
one newline (inside the string literal) before the plus sign, yet the Plus
token carries line 0, not 1. -/
theorem c5_counterexample_newline_inside_string :
    scan_tokens "\"\n\"+" = some [Token.String 0 "\n", Token.Plus 0] ∧
    countNewlines ['"', '\n', '"'] = 1 ∧
    Token.line (Token.Plus 0) = 0 := by decide

/-- C5 (amended): a token's line number counts only the newlines consumed by
the main dispatch loop before the token began; newlines consumed inside
string literals do not count.  Formally: (i) starting the scan one line later
bumps every emitted token's line by exactly one, cumulatively; (ii) a newline
consumed by the dispatch loop continues the scan with the counter
incremented by one; (iii) a string literal's characters - newlines included -
are consumed with the counter unchanged, both for the String token itself
and for the entire rest of the scan. -/
theorem c5_line_counting_amended :
    (∀ (cs : List Char) (n : Nat),
      (scanLoop cs (n + 1)).map (List.map Token.line) =
      (scanLoop cs n).map (List.map (fun t => Token.line t + 1))) ∧
    (∀ (cs : List Char) (n : Nat), scanLoop ('\n' :: cs) n = scanLoop cs (n + 1)) ∧
    (∀ (s rest : List Char) (n : Nat), '"' ∉ s →
      scanLoop ('"' :: (s ++ '"' :: rest)) n =
        (scanLoop rest n).map (fun ts => Token.String n ⟨s⟩ :: ts)) :=
  ⟨scanLoop_shift, scanLoop_newline, scanLoop_string_closed⟩

/-- Witness for the amended C5, at a concrete one-character string literal. -/
theorem c5_line_counting_amended_witness :
    ('"' ∉ (['a'] : List Char)) ∧
    scanLoop ['"', 'a', '"', '+'] 0 =
      (scanLoop ['+'] 0).map (fun ts => Token.String 0 ⟨['a']⟩ :: ts) :=
  ⟨by decide, c5_line_counting_amended.2.2 ['a'] ['+'] 0 (by decide)⟩

/-- C6: any character handled by no dispatch arm - alphabetic characters
included - produces exactly one Invalid token whose message references the
character and the current line, and scanning continues with the next
character; the input consisting solely of an at sign yields exactly one
Invalid token at line 0. -/
theorem c6_unrecognized_char_yields_invalid :
    (∀ (c : Char) (rest : List Char) (n : Nat),
      c ∉ (['(', ')', '{', '}', ',', '.', '-', '+', ';', '*', '/', '!', '=',
        '<', '>', '"', ' ', '\r', '\t', '\n'] : List Char) →
      ¬ c.isDigit →
      scanLoop (c :: rest) n =
        (scanLoop rest n).map (fun ts => Token.Invalid (invalidMessage c n) n :: ts)) ∧
    scan_tokens "@" = some [Token.Invalid "Unexpected character @ line 0" 0] :=
  ⟨scanLoop_unhandled, by decide⟩

/-- Witness for C6 at the alphabetic character a followed by a parenthesis. -/
theorem c6_unrecognized_char_yields_invalid_witness :
    (('a' : Char) ∉ (['(', ')', '{', '}', ',', '.', '-', '+', ';', '*', '/', '!', '=',
      '<', '>', '"', ' ', '\r', '\t', '\n'] : List Char)) ∧
    ¬ ('a' : Char).isDigit ∧
    scanLoop ['a', '('] 0 =
      (scanLoop ['('] 0).map (fun ts => Token.Invalid (invalidMessage 'a' 0) 0 :: ts) :=
  ⟨by decide, by decide,
    c6_unrecognized_char_yields_invalid.1 'a' ['('] 0 (by decide) (by decide)⟩

/-- C7: a quote starts a string literal whose characters are accumulated
verbatim (no escape processing) until a closing quote or end of input; the
String token's payload excludes both quotes; if input ends before a closing
quote, a String token carrying the partial literal is still emitted and no
error token is produced. -/
theorem c7_string_literal_scanning :
    (∀ (s rest : List Char) (n : Nat), '"' ∉ s →
      scanLoop ('"' :: (s ++ '"' :: rest)) n =
        (scanLoop rest n).map (fun ts => Token.String n ⟨s⟩ :: ts)) ∧
    (∀ (s : List Char) (n : Nat), '"' ∉ s →
      scanLoop ('"' :: s) n = some [Token.String n ⟨s⟩]) :=
  ⟨scanLoop_string_closed, scanLoop_string_eoi⟩

/-- Witness for C7: a terminated three-character literal and an unterminated
one-character literal. -/
theorem c7_string_literal_scanning_witness :
    ('"' ∉ (['a', 's', 'd'] : List Char)) ∧
    scanLoop ['"', 'a', 's', 'd', '"'] 0 =
      (scanLoop [] 0).map (fun ts => Token.String 0 ⟨['a', 's', 'd']⟩ :: ts) ∧
    scanLoop ['"', 'x'] 0 = some [Token.String 0 ⟨['x']⟩] :=
  ⟨by decide, c7_string_literal_scanning.1 ['a', 's', 'd'] [] 0 (by decide),
    c7_string_literal_scanning.2 ['x'] 0 (by decide)⟩

/-- C8: after a slash, a second slash turns the rest of the line - up to but
excluding the next newline - into a discarded comment with no token;
otherwise exactly one Slash token is emitted.  The input consisting of a
comment, a newline and a quoted string yields exactly one token, a String
literal asd at line 1. -/
theorem c8_comment_or_slash :
    (∀ (r : List Char) (n : Nat),
      scanLoop ('/' :: '/' :: r) n = scanLoop (r.dropWhile (fun x => x ≠ '\n')) n) ∧
    (∀ (rest : List Char) (n : Nat), rest.head? ≠ some '/' →
      scanLoop ('/' :: rest) n = (scanLoop rest n).map (fun ts => Token.Slash n :: ts)) ∧
    scan_tokens "// Ignored comment\n \"asd\"" = some [Token.String 1 "asd"] :=
  ⟨scanLoop_comment, scanLoop_slash, by decide⟩

/-- Witness for C8: a slash followed by a plus sign emits a Slash token. -/
theorem c8_comment_or_slash_witness :
    ((['+'] : List Char).head? ≠ some '/') ∧
    scanLoop ['/', '+'] 0 = (scanLoop ['+'] 0).map (fun ts => Token.Slash 0 :: ts) :=
  ⟨by decide, c8_comment_or_slash.2.1 ['+'] 0 (by decide)⟩

/-- C9: each of the four two-character operator inputs yields exactly one
token of the two-character kind, and each of the four one-character inputs
(no trailing equals sign) yields exactly one token of the one-character
kind. -/
theorem c9_lookahead_operators :
    scan_tokens "!=" = some [Token.BangEqual 0] ∧
    scan_tokens "==" = some [Token.EqualEqual 0] ∧
    scan_tokens "<=" = some [Token.LessEqual 0] ∧
    scan_tokens ">=" = some [Token.GreaterEqual 0] ∧
    scan_tokens "!" = some [Token.Bang 0] ∧
    scan_tokens "=" = some [Token.Equal 0] ∧
    scan_tokens "<" = some [Token.Less 0] ∧
    scan_tokens ">" = some [Token.Greater 0] := by decide

/-- C10: whenever `scan_tokens` returns a token sequence, the line numbers
carried by its tokens are monotonically non-decreasing in sequence order. -/
theorem c10_token_lines_monotone (source : String) (ts : List Token)
    (h : scan_tokens source = some ts) :
    ts.Pairwise (fun a b => Token.line a ≤ Token.line b) :=
  (scanLoop_sorted_aux source.data.length source.data le_rfl 0 ts h).2

/-- Witness for C10 on a two-line input. -/
theorem c10_token_lines_monotone_witness :
    scan_tokens "(\n)" = some [Token.LeftParen 0, Token.RightParen 1] ∧
    List.Pairwise (fun a b => Token.line a ≤ Token.line b)
      [Token.LeftParen 0, Token.RightParen 1] :=
  ⟨by decide, c10_token_lines_monotone "(\n)" _ (by decide)⟩

end RLox
